import Mathlib

/-!
Verification development for the artifact-executor repository.

The Rust sources are shallowly embedded: pure functions become Lean
functions, mutable structures become explicit state passing, external
collaborators (the host filesystem, the glob crate, the regex crate, the
serde codec, the SHA-256 digest and the hash-set enumeration of the Rust
standard library) become parameters or small models whose doc comments say
exactly which contract they model.  Each embedded function cites the file
and line range of the Rust source it is translated from.

Where an embedded loop of the source has no structural termination
argument, the Lean function takes an explicit fuel argument, pattern
matched as the first parameter so that the definition is structural and
kernel reducible; a distinguished result constructor reports fuel
exhaustion so it can never be confused with a genuine result.
-/

namespace ArtifactExecutor

/-- A relative path, as the list of its components, mirroring how Rust
compares a PathBuf component by component. -/
abbrev PathC := List String

/-- An environment-variable entry, mirroring the Rust pair of key and
value strings. -/
abbrev EnvPair := String × String

/-! ## Generic list-as-set helpers

HashSet insertion, removal and membership used throughout canonical.rs are
modelled on lists that are kept duplicate free by construction; iteration
order of a hash set is unspecified in Rust, so every use below is either
order insensitive (unions, cardinalities, final sorts) or takes the
enumeration order as an explicit parameter. -/

/-- Set-semantics insertion: model of HashSet::insert. -/
def insertUnique [DecidableEq α] (xs : List α) (x : α) : List α :=
  if x ∈ xs then xs else xs ++ [x]

/-- Set-semantics removal: model of HashSet::remove used as a statement. -/
def removeAll [DecidableEq α] (xs : List α) (x : α) : List α :=
  xs.filter (fun y => decide (y ≠ x))

/-- The distinct elements of a list in order of first occurrence: the
contents of the HashSet built by collecting the list.  The enumeration
order in which Rust then iterates that set is unspecified; callers that
depend on it take a reordering function as a parameter. -/
def dedupAux [DecidableEq α] : List α → List α → List α
  | [], _ => []
  | x :: xs, seen => if x ∈ seen then dedupAux xs seen else x :: dedupAux xs (x :: seen)

/-- See dedupAux. -/
def dedupKeepFirst [DecidableEq α] (l : List α) : List α := dedupAux l []

/-! ## Orders on strings and paths

Rust sorts Vec of PathBuf with the derived Ord, which compares paths
component by component and components byte by byte; for the ASCII data of
this repository that is the same as comparing Char code points. -/

/-- Byte-wise three-way comparison of strings as character lists. -/
def strCmpL : List Char → List Char → Ordering
  | [], [] => .eq
  | [], _ :: _ => .lt
  | _ :: _, [] => .gt
  | a :: as, b :: bs =>
    if a.toNat < b.toNat then .lt
    else if b.toNat < a.toNat then .gt
    else strCmpL as bs

/-- Three-way comparison of strings. -/
def strCmp (a b : String) : Ordering := strCmpL a.data b.data

/-- Non-strict string order as a Boolean. -/
def strLeB (a b : String) : Bool :=
  match strCmp a b with
  | .gt => false
  | _ => true

/-- Component-wise three-way comparison of paths: the model of the derived
Ord on PathBuf. -/
def pathCmp : PathC → PathC → Ordering
  | [], [] => .eq
  | [], _ :: _ => .lt
  | _ :: _, [] => .gt
  | a :: as, b :: bs =>
    match strCmp a b with
    | .eq => pathCmp as bs
    | o => o

/-- Non-strict path order as a Boolean. -/
def pathLeB (a b : PathC) : Bool :=
  match pathCmp a b with
  | .gt => false
  | _ => true

/-- Environment-variable order used by sort_by on the key only
(canonical.rs lines 881 to 883 and 918 to 920). -/
def keyLe (a b : EnvPair) : Bool := strLeB a.1 b.1

/-! ## Stable insertion sort

Vec::sort in Rust is a stable sort with a total order; a stable insertion
sort with the same comparison produces the identical vector, so the
embedding uses insertion sort throughout. -/

/-- Insert into a sorted list, before the first element the new element is
less than or equal to; processing the original list right to left with
this insertion is stable. -/
def insertSorted (le : α → α → Bool) (x : α) : List α → List α
  | [] => [x]
  | y :: ys => if le x y then x :: y :: ys else y :: insertSorted le x ys

/-- Stable insertion sort: the model of Vec::sort and sort_by. -/
def insort (le : α → α → Bool) (l : List α) : List α :=
  l.foldr (insertSorted le) []

/-- Adjacent-pairs sortedness as a Boolean. -/
def chainB (le : α → α → Bool) : List α → Bool
  | [] => true
  | [_] => true
  | x :: y :: rest => le x y && chainB le (y :: rest)

/-! ## Glob matching

Model of the glob crate used by the filesystem abstraction: a pattern is a
list of components; a component named with two stars matches zero or more
path components, and inside any other component a star matches any run of
characters while other characters match literally.  The patterns of the
claims use no other glob feature. -/

/-- Component matcher with explicit fuel; fuel one plus the sum of both
lengths always suffices because every recursive call shrinks the sum. -/
def compMatchF : Nat → List Char → List Char → Bool
  | 0, _, _ => false
  | Nat.succ _, [], [] => true
  | Nat.succ _, [], _ :: _ => false
  | Nat.succ fuel, '*' :: ps, [] => compMatchF fuel ps []
  | Nat.succ fuel, '*' :: ps, c :: cs =>
      compMatchF fuel ps (c :: cs) || compMatchF fuel ('*' :: ps) cs
  | Nat.succ _, _ :: _, [] => false
  | Nat.succ fuel, p :: ps, c :: cs => p == c && compMatchF fuel ps cs

/-- Matches one glob component against one path component. -/
def compMatch (p s : List Char) : Bool := compMatchF (p.length + s.length + 1) p s

/-- Path matcher with explicit fuel, handling the two-star component. -/
def globMatchF : Nat → List String → List String → Bool
  | 0, _, _ => false
  | Nat.succ _, [], [] => true
  | Nat.succ _, [], _ :: _ => false
  | Nat.succ fuel, "**" :: ps, [] => globMatchF fuel ps []
  | Nat.succ fuel, "**" :: ps, c :: cs =>
      globMatchF fuel ps (c :: cs) || globMatchF fuel ("**" :: ps) cs
  | Nat.succ _, _ :: _, [] => false
  | Nat.succ fuel, p :: ps, c :: cs => compMatch p.data c.data && globMatchF fuel ps cs

/-- Matches a glob pattern against a path. -/
def globMatch (p : List String) (s : PathC) : Bool :=
  globMatchF (p.length + s.length + 1) p s

/-! ## Filesystem model

Modelled from the spec: the host filesystem shim of section 4.A is an
external collaborator.  A filesystem is a finite set of regular files,
each a relative path with its text content given as the list of lines the
buffered reader would yield.  It supports existence tests, reading,
executing a glob over all files, and testing a single path against a glob;
the methods file_exists and glob_matches used by canonical.rs are absent
from the Filesystem trait in src and are modelled from the words of the
spec. -/
structure FSM where
  files : List (PathC × List String)

/-- Existence test for a regular file. -/
def FSM.fileExists (fs : FSM) (p : PathC) : Bool :=
  fs.files.any (fun e => e.fst == p)

/-- Opens a file and yields its lines, or none when the file is absent. -/
def FSM.readLines (fs : FSM) (p : PathC) : Option (List String) :=
  (fs.files.find? (fun e => e.fst == p)).map Prod.snd

/-- Executes a glob pattern: every stored file whose path matches. -/
def FSM.execute_glob (fs : FSM) (g : List String) : List PathC :=
  (fs.files.filter (fun e => globMatch g e.fst)).map Prod.fst

/-- Splits a candidate string produced by a regex replacement into path
components, the model of PathBuf::from on a slash-separated string. -/
def splitChars : List Char → List Char → PathC
  | [], cur => [String.mk cur.reverse]
  | '/' :: rest, cur => String.mk cur.reverse :: splitChars rest []
  | c :: rest, cur => splitChars rest (c :: cur)

/-- See splitChars. -/
def splitPath (s : String) : PathC := splitChars s.data []

/-- Strips a literal leading character sequence, or fails. -/
def stripLead : List Char → List Char → Option (List Char)
  | [], rest => some rest
  | _ :: _, [] => none
  | p :: ps, c :: cs => if p == c then stripLead ps cs else none

/-- Model of the regex crate evaluating the anchored pattern consisting of
a literal head, an open parenthesis, a nonempty capture of characters
other than a close parenthesis, and a close parenthesis at the end of the
line, combined with the single replacement template that yields the
capture: find_iter yields at most one match on such an anchored pattern,
and replace with the capture template returns the captured text.  This is
the shape of both inter-file-reference regexes of scenario S1. -/
def capParen (head : String) (line : String) : List String :=
  match stripLead (head.data ++ ['(']) line.data with
  | none => []
  | some rest =>
    match rest.reverse with
    | [] => []
    | last :: innerRev =>
      if last == ')' then
        let inner := innerRev.reverse
        if inner.length > 0 && !(inner.contains ')') then [String.mk inner] else []
      else []

/-! ## Inputs configuration and input discovery

Embedding of transport.rs Inputs and InterFileReferences and of
canonical.rs get_matching_input_files, is_shallowly_excluded,
surely_includes_none and the TryFrom conversion to FilesManifest
(canonical.rs lines 457 to 653).  Each match-transform of a clause is
modelled by its semantics: the function from a line to the candidate
strings produced by iterating the regex matches and, for each, every
replacement template, in order. -/

mutual
inductive ConfigM : Type where
  | mk (includeFiles excludeFiles : List PathC)
       (includeGlobs excludeGlobs : List (List String))
       (interFileReferences : List ClauseM) : ConfigM
inductive ClauseM : Type where
  | mk (filesToMatch : Option ConfigM)
       (matchTransforms : List (String → List String))
       (directoriesToSearch : Option (List PathC)) : ClauseM
end

/-- Accessor for the clause list. -/
def ConfigM.clauses : ConfigM → List ClauseM
  | .mk _ _ _ _ cl => cl

/-- Accessor for the optional sub-configuration of a clause. -/
def ClauseM.filesToMatch : ClauseM → Option ConfigM
  | .mk f _ _ => f

mutual
/-- canonical.rs lines 479 to 493: true when the configuration has no
include-files, no include-globs, and every nested files_to_match
recursively shares this property. -/
def surely_includes_none : ConfigM → Bool
  | .mk incF _ incG _ clauses =>
      incF.isEmpty && incG.isEmpty && clausesSurelyIncludeNone clauses
/-- Helper of surely_includes_none iterating the clause list. -/
def clausesSurelyIncludeNone : List ClauseM → Bool
  | [] => true
  | (ClauseM.mk none _ _) :: rest => clausesSurelyIncludeNone rest
  | (ClauseM.mk (some sub) _ _) :: rest =>
      surely_includes_none sub && clausesSurelyIncludeNone rest
end

/-- canonical.rs lines 636 to 653: membership in exclude_files or a match
of any exclude_glob; the test does not recurse. -/
def is_shallowly_excluded (fs : FSM) (cfg : ConfigM) (p : PathC) : Bool :=
  match cfg with
  | .mk _ excF _ excG _ =>
    excF.contains p || excG.any (fun g => globMatch g p)

/-- canonical.rs lines 500 to 539: the seed set, namely include_files plus
all include_glob matches minus all exclude_glob matches minus
exclude_files. -/
def seedFiles (fs : FSM) (cfg : ConfigM) : List PathC :=
  match cfg with
  | .mk incF excF incG excG _ =>
    let f0 := incF.foldl insertUnique ([] : List PathC)
    let f1 := incG.foldl (fun acc g => (fs.execute_glob g).foldl insertUnique acc) f0
    let f2 := excG.foldl (fun acc g => (fs.execute_glob g).foldl removeAll acc) f1
    excF.foldl removeAll f2

/-- canonical.rs lines 587 to 616: resolve one candidate string, trying
each directory to search in order and keeping the first joined path that
exists and is not shallowly excluded, or, with no directories, the
candidate path itself under the same test. -/
def firstExisting (fs : FSM) (cfg : ConfigM) : List PathC → PathC → Option PathC
  | [], _ => none
  | d :: ds, cp =>
    let full := d ++ cp
    if fs.fileExists full && !(is_shallowly_excluded fs cfg full) then some full
    else firstExisting fs cfg ds cp

/-- See firstExisting. -/
def resolveCandidate (fs : FSM) (cfg : ConfigM) (dirs : Option (List PathC))
    (cand : String) : Option PathC :=
  let cp := splitPath cand
  match dirs with
  | some ds => firstExisting fs cfg ds cp
  | none =>
    if fs.fileExists cp && !(is_shallowly_excluded fs cfg cp) then some cp else none

/-- canonical.rs lines 569 to 620: scan the lines of one file with every
match-transform of the clause, resolving each candidate and collecting the
matched files. -/
def scanLines (fs : FSM) (cfg : ConfigM) (mts : List (String → List String))
    (dirs : Option (List PathC)) (lines : List String) (matched : List PathC) :
    List PathC :=
  lines.foldl (fun acc line =>
    mts.foldl (fun acc mt =>
      (mt line).foldl (fun acc cand =>
        match resolveCandidate fs cfg dirs cand with
        | some p => insertUnique acc p
        | none => acc) acc) acc) matched

/-- canonical.rs lines 565 to 621: scan every file of the scanning set,
failing like the source when a scanned file cannot be opened. -/
def scanSet (fs : FSM) (cfg : ConfigM) (mts : List (String → List String))
    (dirs : Option (List PathC)) (scanning : List PathC) : Option (List PathC) :=
  scanning.foldl (fun res f =>
    match res with
    | none => none
    | some acc =>
      match fs.readLines f with
      | none => none
      | some lines => some (scanLines fs cfg mts dirs lines acc)) (some [])

/-- Result of input discovery: the file set, an error, or fuel exhaustion
of the embedding (the source loop carries no fuel; adequate fuel never
reaches the third constructor). -/
inductive DRes : Type where
  | ok (files : List PathC)
  | err
  | fuelOut
deriving DecidableEq

mutual
/-- canonical.rs lines 496 to 631: seed set, then the while loop that
keeps running all inter-file-reference clauses until the counters say the
set stopped growing. -/
def get_matching_input_files : Nat → FSM → ConfigM → DRes
  | 0, _, _ => .fuelOut
  | Nat.succ fuel, fs, cfg =>
    let files := seedFiles fs cfg
    discoverLoop fuel fs cfg files files.length (files.length + 1)

/-- The while loop of get_matching_input_files with its two counters,
faithfully including that the loop exits as soon as the previous counter
is not below the current one. -/
def discoverLoop : Nat → FSM → ConfigM → List PathC → Nat → Nat → DRes
  | 0, _, _, _, _, _ => .fuelOut
  | Nat.succ fuel, fs, cfg, files, prev, num =>
    if prev < num then
      match runClausesAux fuel fs cfg cfg.clauses files with
      | .ok files2 => discoverLoop fuel fs cfg files2 num files2.length
      | r => r
    else .ok files

/-- One pass over the clause list: for each clause choose the scanning set
(the recursively discovered files_to_match set when declared, otherwise
the current accumulating set), scan it, and extend the set with the
matched files. -/
def runClausesAux : Nat → FSM → ConfigM → List ClauseM → List PathC → DRes
  | 0, _, _, _, _ => .fuelOut
  | Nat.succ _, _, _, [], files => .ok files
  | Nat.succ fuel, fs, cfg, clause :: rest, files =>
    match clause with
    | .mk ftm mts dirs =>
      match (match ftm with
             | some sub => get_matching_input_files fuel fs sub
             | none => .ok files) with
      | .ok scanning =>
        match scanSet fs cfg mts dirs scanning with
        | some matched => runClausesAux fuel fs cfg rest (matched.foldl insertUnique files)
        | none => .err
      | r => r
end

/-- canonical.rs lines 457 to 477: loading a FilesManifest from an inputs
configuration fails when the configuration surely includes none, otherwise
collects the discovered files and sorts them. -/
def inputs_manifest_try_from (fuel : Nat) (fs : FSM) (cfg : ConfigM) : DRes :=
  if surely_includes_none cfg then .err
  else
    match get_matching_input_files fuel fs cfg with
    | .ok files => .ok (insort pathLeB files)
    | r => r

/-- The claim C6 hypothesis, phrased structurally from the words of the
spec: no include-files, no include-globs, and every nested files_to_match
recursively sharing the property. -/
inductive SpecIncludesNothing : ConfigM → Prop where
  | intro {incF excF : List PathC} {incG excG : List (List String)}
      {clauses : List ClauseM} :
      incF = [] → incG = [] →
      (∀ c ∈ clauses, ∀ sub, ClauseM.filesToMatch c = some sub →
        SpecIncludesNothing sub) →
      SpecIncludesNothing (.mk incF excF incG excG clauses)

/-! ## Scenario S1 of the spec

The filesystem contents and inputs configuration of scenario S1, as built
by the repository test canonical.rs lines 1516 to 1604.  File contents are
given as the line lists a buffered reader yields. -/

/-- The S1 filesystem. -/
def s1fs : FSM :=
  ⟨[(["m.stu"], []),
    (["a", "n.stu"], []),
    (["a", "b", "o.stu"], []),
    (["a", "b", "p.vwx"], []),
    (["a", "b", "c", "p.vwx"], []),
    (["a", "b", "d", "p.vwx"], ["", "", "INCLUDE_FILE(referenced)", ""]),
    (["__", "referenced"],
      ["", "", "INCLUDE_FILE(b/c/p.vwx)", "INCLUDE_FILE_INTERNAL(referenced2)"]),
    (["a", "referenced2"], [])]⟩

/-- First S1 clause: match INCLUDE_FILE lines over the current set and
search directory double-underscore. -/
def s1Clause1 : ClauseM :=
  .mk none [capParen "INCLUDE_FILE"] (some [["__"]])

/-- Second S1 clause: match INCLUDE_FILE_INTERNAL lines over the files of
the sub-configuration whose include-glob selects the files directly under
the double-underscore directory, and search directory a. -/
def s1Clause2 : ClauseM :=
  .mk (some (.mk [] [] [["__", "*"]] [] []))
      [capParen "INCLUDE_FILE_INTERNAL"]
      (some [["a"]])

/-- The S1 inputs configuration. -/
def s1cfg : ConfigM :=
  .mk [["a", "n.stu"]] [["a", "b", "p.vwx"]]
      [["a", "b", "**", "*.vwx"]] [["**", "c", "*.vwx"]]
      [s1Clause1, s1Clause2]

/-- The manifest the claim expects for S1. -/
def s1Expected : List PathC :=
  [["__", "referenced"], ["a", "b", "d", "p.vwx"], ["a", "n.stu"],
   ["a", "referenced2"]]

/-! ## Output projection

Two embeddings, one per Rust implementation.  A match-transform stage is
modelled by the semantics of its compiled regex and templates: a matching
test and, per replacement template, the replace_all function. -/

/-- One stage of a transform sequence. -/
structure MTStageM where
  isMatch : String → Bool
  transformAll : List (String → String)

/-- An outputs description: include files and exclude matches are kept as
path strings and match predicates; regex validation happened on entry. -/
structure OutputsCfgM where
  includeFiles : List String
  includeMatchTransforms : List (List MTStageM)
  excludeMatches : List (String → Bool)

/-- Final sort order of the projection: output strings become PathBuf
values first, so comparison is component wise. -/
def outLe (a b : String) : Bool := pathLeB (splitPath a) (splitPath b)

/-- canonical.rs lines 666 to 755, the TryFrom conversion from an inputs
manifest and an outputs description to a FilesManifest: for each input not
matched by any exclude regex, each transform sequence rewrites a set of
current paths stage by stage, dropping paths a stage does not match, and
the survivors of the last stage join the output set. -/
def outputs_manifest_try_from (inputs : List String) (cfg : OutputsCfgM) :
    List String :=
  let files0 := cfg.includeFiles.foldl insertUnique []
  let files := inputs.foldl (fun files inp =>
    if cfg.excludeMatches.any (fun e => e inp) then files
    else
      cfg.includeMatchTransforms.foldl (fun files series =>
        let outs := series.foldl (fun cur stage =>
          cur.foldl (fun nxt s =>
            if stage.isMatch s then
              stage.transformAll.foldl (fun nxt t => insertUnique nxt (t s)) nxt
            else nxt) []) [inp]
        outs.foldl insertUnique files) files) files0
  insort outLe files

/-- canonical.rs lines 1467 to 1495, the stage loop of
get_matching_output_files: a single current path is rewritten through the
stages, the loop breaks at the first stage that does not match, every
transform template of a stage is applied in sequence to the same string,
and after each stage the current path is inserted unless an exclude regex
matches the transformed value. -/
def gmofStages (excl : List (String → Bool)) :
    List MTStageM → String → List String → List String
  | [], _, files => files
  | stage :: rest, outputPath, files =>
    if !(stage.isMatch outputPath) then files
    else
      let outputPath2 := stage.transformAll.foldl (fun s t => t s) outputPath
      let files2 :=
        if excl.any (fun e => e outputPath2) then files
        else insertUnique files outputPath2
      gmofStages excl rest outputPath2 files2

/-- canonical.rs lines 1450 to 1500: get_matching_output_files, the output
projection used on the execution path through TaskOutputs try_from. -/
def get_matching_output_files (inputFiles : List String) (cfg : OutputsCfgM) :
    List String :=
  let files0 := cfg.includeFiles.foldl insertUnique []
  cfg.includeMatchTransforms.foldl (fun files series =>
    inputFiles.foldl (fun files inp =>
      gmofStages cfg.excludeMatches series inp files) files) files0

/-- True when the suffix argument ends the string. -/
def sEndsWith (s suf : String) : Bool :=
  decide (suf.data.length ≤ s.data.length) &&
    (s.data.drop (s.data.length - suf.data.length) == suf.data)

/-- Drops the given number of final characters. -/
def sDropRight (s : String) (n : Nat) : String :=
  String.mk (s.data.take (s.data.length - n))

/-- Model of the regex matching any string that ends in dot s t u with the
whole string captured before the dot: the anchored pattern of scenario S2
with one capture group. -/
def c4StageIsMatch (s : String) : Bool := sEndsWith s ".stu"

/-- Model of replace_all with the template that wraps the capture between
the out directory and the out dot s t u ending. -/
def c4StageRewrite (s : String) : String :=
  "out/" ++ sDropRight s 4 ++ ".out.stu"

/-- Model of the exclude regex matching any path ending in slash o dot s t
u, from scenario S2. -/
def c4Exclude (s : String) : Bool := sEndsWith s "/o.stu"

/-- The outputs description of the C4 failing input. -/
def c4Cfg : OutputsCfgM :=
  ⟨[], [[⟨c4StageIsMatch, [c4StageRewrite]⟩]], [c4Exclude]⟩

/-- The inputs manifest of the C4 failing input. -/
def c4Inputs : List String := ["a/b/o.stu"]

/-! ## File-identities manifests

Embedding of transport.rs FileIdentitiesManifest and of the strict TryFrom
loader in canonical.rs lines 820 to 847.  The identity scheme tag is kept
as a string; identities are abstract. -/

/-- The transport form: scheme tag and path-identity pairs in file order. -/
structure FileIdentitiesManifestT (Id : Type) where
  identityScheme : String
  identities : List (PathC × Option Id)

/-- The canonical form produced by the loader. -/
structure FileIdentitiesManifestM (Id : Type) where
  identityScheme : String
  identities : List (PathC × Option Id)

/-- canonical.rs lines 820 to 847: collect the stated paths, sort a copy,
and fail exactly when the two differ; the accepted transport is taken as
is.  The source performs no duplicate check here. -/
def fim_try_from {Id : Type} (t : FileIdentitiesManifestT Id) :
    Option (FileIdentitiesManifestM Id) :=
  let statedPaths := t.identities.map Prod.fst
  let sortedPaths := insort pathLeB statedPaths
  if statedPaths = sortedPaths then some ⟨t.identityScheme, t.identities⟩
  else none

/-- The C5 counterexample transport: sorted but duplicated paths. -/
def c5Dup : FileIdentitiesManifestT String :=
  ⟨"content_sha256", [(["a"], none), (["a"], none)]⟩

/-! ## Environment-variable loaders

Embedding of canonical.rs lines 878 to 951.  Both loaders compare a sorted
vector against a vector collected from a HashSet; the enumeration order of
that set is unspecified in Rust, so the loaders take the enumeration as a
function parameter applied to the distinct pairs in first-occurrence
order.  Soundness of a caller-supplied enumeration is the permutation
hypothesis of the theorems. -/

/-- canonical.rs lines 878 to 903: sort by key (stable), collect into a
hash set, enumerate, and fail when the enumeration differs from the sorted
vector; on success the sorted vector is kept. -/
def try_from_config (enumOrder : List EnvPair → List EnvPair)
    (evs : List EnvPair) : Option (List EnvPair) :=
  let sortedv := insort keyLe evs
  let dedupv := enumOrder (dedupKeepFirst sortedv)
  if sortedv = dedupv then some sortedv else none

/-- canonical.rs lines 914 to 951: fail when the input differs from its
key-sorted copy, then perform the same hash-set duplicate comparison; on
success the sorted vector is kept. -/
def try_from_manifest (enumOrder : List EnvPair → List EnvPair)
    (evs : List EnvPair) : Option (List EnvPair) :=
  let sortedv := insort keyLe evs
  if evs = sortedv then
    (let dedupv := enumOrder (dedupKeepFirst sortedv)
     if sortedv = dedupv then some sortedv else none)
  else none

/-- The identity enumeration of the hash-set contents. -/
def idOrder (l : List EnvPair) : List EnvPair := l

/-- The reversed enumeration of the hash-set contents, one admissible
iteration order of a two-element hash set. -/
def revOrder (l : List EnvPair) : List EnvPair := l.reverse

/-- C7 data: an unsorted duplicate-free sequence. -/
def c7Unsorted : List EnvPair := [("B", "2"), ("A", "1")]

/-- C7 data: a sorted sequence with a duplicated pair. -/
def c7DupManifest : List EnvPair := [("A", "1"), ("A", "1")]

/-- C7 data: a configuration with a duplicated pair. -/
def c7DupConfig : List EnvPair := [("B", "2"), ("A", "1"), ("A", "1")]

/-- C7 data: a duplicate-free configuration, out of order. -/
def c7NoDup : List EnvPair := [("B", "2"), ("A", "1")]

/-- The key-sorted form of the duplicate-free configuration. -/
def c7NoDupSorted : List EnvPair := [("A", "1"), ("B", "2")]

/-! ## Listing

Embedding of canonical.rs lines 157 to 181: a listing is a hash set of
identities, modelled as its membership list. -/

/-- The listing state. -/
structure ListingM (α : Type) where
  entries : List α

/-- canonical.rs lines 169 to 176: put returns false and leaves the set
alone when the identity is present, otherwise inserts and returns true. -/
def ListingM.put [DecidableEq α] (l : ListingM α) (identity : α) :
    Bool × ListingM α :=
  if identity ∈ l.entries then (false, l)
  else (true, ⟨l.entries ++ [identity]⟩)

/-- canonical.rs lines 178 to 180: remove returns whether the identity was
present and removes it. -/
def ListingM.remove [DecidableEq α] (l : ListingM α) (identity : α) :
    Bool × ListingM α :=
  (decide (identity ∈ l.entries),
   ⟨l.entries.filter (fun y => decide (y ≠ identity))⟩)

/-! ## Blob store

Embedding of blob.rs.  A blob directory is a finite map from file name to
file content, both strings; the digest of the identity scheme and the
codec are external collaborators passed as functions.  Identities are
already rendered in their string form, as the source does with to_string
before building the file name. -/

/-- A directory of files seen through the filesystem abstraction. -/
abbrev BlobFS := List (String × String)

/-- Reads a file by name. -/
def fsRead (fs : BlobFS) (name : String) : Option String :=
  (fs.find? (fun e => e.fst == name)).map Prod.snd

/-- Creates or truncates a file and writes the content. -/
def fsWrite (fs : BlobFS) (name content : String) : BlobFS :=
  (fs.filter (fun e => decide (e.fst ≠ name))) ++ [(name, content)]

/-- Renames a file inside the directory, the model of move_from_to. -/
def fsMove (fs : BlobFS) (src dst : String) : BlobFS :=
  match fsRead fs src with
  | some c => fsWrite (fs.filter (fun e => decide (e.fst ≠ src))) dst c
  | none => fs

/-- blob.rs lines 201 to 216: serialize to a string, digest the bytes,
write them under the digest as file name, and return the identity. -/
def write_small_blob {α : Type} (digest : String → String) (ser : α → String)
    (fs : BlobFS) (data : α) : String × BlobFS :=
  let blobString := ser data
  let identity := digest blobString
  (identity, fsWrite fs identity blobString)

/-- blob.rs lines 218 to 241: stream the serialization to a temporary file
named with a random number, digest the file content, and rename the file
to the digest; the read back of the temporary file can fail like
identify_file, hence the optional result. -/
def write_large_blob {α : Type} (digest : String → String) (serW : α → String)
    (fs : BlobFS) (data : α) (randomU64 : Nat) : Option (String × BlobFS) :=
  let temporaryBlobName := "temporary_blob_" ++ toString randomU64
  let fs1 := fsWrite fs temporaryBlobName (serW data)
  match fsRead fs1 temporaryBlobName with
  | none => none
  | some content =>
    let identity := digest content
    some (identity, fsMove fs1 temporaryBlobName identity)

/-- blob.rs lines 243 to 256: write the serialized destination identity
under the given source identity as file name. -/
def write_raw_blob_pointer (serId : String → String) (fs : BlobFS)
    (sourceIdentity destinationIdentity : String) : BlobFS :=
  fsWrite fs sourceIdentity (serId destinationIdentity)

/-- blob.rs lines 258 to 274: digest the serialized source data to obtain
the source identity, write the serialized destination identity under it,
and return the source identity. -/
def write_small_blob_pointer {α : Type} (digest : String → String)
    (serId : String → String) (ser : α → String) (fs : BlobFS)
    (sourceData : α) (destinationIdentity : String) : String × BlobFS :=
  let blobString := ser sourceData
  let sourceIdentity := digest blobString
  (sourceIdentity, fsWrite fs sourceIdentity (serId destinationIdentity))

/-- blob.rs lines 276 to 295: serialize the source data to an operating
system temporary file outside the blob directory, digest that content to
obtain the source identity, and write the pointer under it. -/
def write_large_blob_pointer {α : Type} (digest : String → String)
    (serId : String → String) (serW : α → String) (fs : BlobFS)
    (sourceData : α) (destinationIdentity : String) : String × BlobFS :=
  let sourceIdentity := digest (serW sourceData)
  (sourceIdentity, fsWrite fs sourceIdentity (serId destinationIdentity))

/-- blob.rs lines 184 to 199: open the file named by the source identity
and deserialize an identity from its content. -/
def read_blob_pointer (deserId : String → Option String) (fs : BlobFS)
    (sourceIdentity : String) : Option String :=
  (fsRead fs sourceIdentity).bind deserId

/-! ## Cache

Embedding of cache.rs put_task and get_outputs (lines 222 to 247 and 281
to 298).  Serializers for the task input, task output and metadata
transports and the digest are external collaborators passed as
functions. -/

/-- The cache state: blob directory, the two pointer directories, the
in-memory index and its flushed file. -/
structure CacheState where
  blobs : BlobFS
  outputsPointers : BlobFS
  metadataPointers : BlobFS
  indexEntries : List String
  indexFile : Option (List String)

/-- Index put, with the set semantics of Listing::put. -/
def index_put (st : CacheState) (id : String) : CacheState :=
  if id ∈ st.indexEntries then st
  else { st with indexEntries := st.indexEntries ++ [id] }

/-- Index flush: the listing transport sorts the entries
(canonical.rs lines 194 to 202) and the file is overwritten. -/
def index_flush (st : CacheState) : CacheState :=
  { st with indexFile := some (insort strLeB st.indexEntries) }

/-- cache.rs lines 222 to 247: put_task.  The serialized inputs manifest
is stored as a blob and indexed; then, at line 238, the source serializes
the inputs value a second time for the blob meant to hold the outputs
manifest, so the second write also receives the serialized inputs and the
outputs argument is never serialized.  A raw pointer from the inputs
identity to that blob and a metadata blob with its pointer follow, and the
index is flushed. -/
def put_task {ι σ μ : Type} (digest : String → String) (serInputs : ι → String)
    (serOutputs : σ → String) (serMetadata : μ → String)
    (serId : String → String) (st : CacheState) (metadata : μ) (inputs : ι)
    (outputs : σ) : CacheState :=
  let inputsWrite := write_small_blob digest serInputs st.blobs inputs
  let inputsIdentity := inputsWrite.1
  let st1 := { st with blobs := inputsWrite.2 }
  let st2 := index_put st1 inputsIdentity
  let outputsWrite := write_small_blob digest serInputs st2.blobs inputs
  let outputsIdentity := outputsWrite.1
  let st3 := { st2 with blobs := outputsWrite.2 }
  let st4 := { st3 with outputsPointers :=
    (write_raw_blob_pointer serId st3.outputsPointers inputsIdentity
      outputsIdentity) }
  let metadataWrite := write_small_blob digest serMetadata st4.blobs metadata
  let metadataIdentity := metadataWrite.1
  let st5 := { st4 with blobs := metadataWrite.2 }
  let st6 := { st5 with metadataPointers :=
    (write_raw_blob_pointer serId st5.metadataPointers inputsIdentity
      metadataIdentity) }
  index_flush st6

/-- cache.rs lines 281 to 298: get_outputs.  A failed pointer read yields
ok-none; a missing blob or a blob that does not deserialize as a task
output propagates an error. -/
def get_outputs {σ : Type} (deserId : String → Option String)
    (deserTaskOutput : String → Option σ) (st : CacheState)
    (taskInputsIdentity : String) : Except Unit (Option σ) :=
  match read_blob_pointer deserId st.outputsPointers taskInputsIdentity with
  | none => .ok none
  | some outputsIdentity =>
    match fsRead st.blobs outputsIdentity with
    | none => .error ()
    | some content =>
      match deserTaskOutput content with
      | none => .error ()
      | some o => .ok (some o)

/-- Concrete C2 serializers: task-input and task-output transports
serialize to distinctly tagged strings, as the two serde types produce
JSON objects of different shapes. -/
def c2SerInputs (i : String) : String := "I:" ++ i

/-- See c2SerInputs. -/
def c2SerOutputs (o : String) : String := "O:" ++ o

/-- Deserializing a task output succeeds only on the task-output shape,
as serde fails on a JSON object missing the input_files_with_program
field. -/
def c2DeserTaskOutput (c : String) : Option String :=
  match stripLead ("O:".data) c.data with
  | some rest => some (String.mk rest)
  | none => none

/-- A concrete injective digest for the C2 instance. -/
def c2Digest (s : String) : String := "h" ++ s

/-- The empty cache. -/
def c2Init : CacheState := ⟨[], [], [], [], none⟩

/-- The cache state after put_task with inputs value in and outputs value
out. -/
def c2State : CacheState :=
  put_task c2Digest c2SerInputs c2SerOutputs (fun _ : Unit => "M")
    (fun i => i) c2Init () "in" "out"

/-! ## Executor

Embedding of execute.rs CacheDirectoryTaskExecutor (lines 103 to 213).
The BlobPointerFileCache type holding the stdout and stderr captures is
absent from blob.rs in src; modelled from the spec, section 4.J step 1, as
opening a sink file named after the fingerprint, recorded here as the list
of opened names.  Serialization, digest, deserializers, the output
computation of TaskOutputs try_from, and the runner verdict are external
collaborators passed in an environment; the runner run count is the
test-double counter of scenario S5. -/

/-- Executor cache directories plus the runner counter. -/
structure ExecutorState where
  blobs : BlobFS
  outputsPointers : BlobFS
  stdoutsOpened : List String
  stderrsOpened : List String
  runnerRuns : Nat

/-- The external collaborators of the executor. -/
structure ExecEnv (τ ω : Type) where
  digest : String → String
  serTaskInputs : τ → String
  deserIdentity : String → Option String
  deserTaskOutputs : String → Option ω
  computeOutputs : τ → ω
  runSucceeds : τ → Bool

/-- execute.rs lines 103 to 124: open the stdout and stderr sinks named
after the inputs identity, run the task, and on success compute the
concrete outputs.  No blob and no pointer is written. -/
def do_force_execute {τ ω : Type} (env : ExecEnv τ ω) (st : ExecutorState)
    (inputs : τ) (inputsIdentity : String) : Except Unit (ω × ExecutorState) :=
  let st1 := { st with stdoutsOpened := st.stdoutsOpened ++ [inputsIdentity],
                       stderrsOpened := st.stderrsOpened ++ [inputsIdentity] }
  let st2 := { st1 with runnerRuns := st1.runnerRuns + 1 }
  if env.runSucceeds inputs then .ok (env.computeOutputs inputs, st2)
  else .error ()

/-- execute.rs lines 187 to 198: serialize and digest the inputs, then
do_force_execute. -/
def force_execute {τ ω : Type} (env : ExecEnv τ ω) (st : ExecutorState)
    (inputs : τ) : Except Unit (ω × ExecutorState) :=
  do_force_execute env st inputs (env.digest (env.serTaskInputs inputs))

/-- execute.rs lines 145 to 167: serialize and digest the inputs; when the
outputs pointer resolves, read and deserialize the cached outputs blob,
propagating blob errors; otherwise force_execute. -/
def load_or_execute {τ ω : Type} (env : ExecEnv τ ω) (st : ExecutorState)
    (inputs : τ) : Except Unit (ω × ExecutorState) :=
  let inputsIdentity := env.digest (env.serTaskInputs inputs)
  match read_blob_pointer env.deserIdentity st.outputsPointers inputsIdentity with
  | some cachedOutputsIdentity =>
    match fsRead st.blobs cachedOutputsIdentity with
    | none => .error ()
    | some content =>
      match env.deserTaskOutputs content with
      | none => .error ()
      | some outputs => .ok (outputs, st)
  | none => force_execute env st inputs

/-- The concrete C1 environment: identity serialization, a tagged digest,
total deserializers, a deterministic output computation and an always
succeeding runner double. -/
def c1Env : ExecEnv String String :=
  ⟨fun s => "h" ++ s, fun t => t, Option.some, Option.some,
   fun t => "out:" ++ t, fun _ => true⟩

/-- The fresh executor state. -/
def c1Init : ExecutorState := ⟨[], [], [], [], 0⟩

/-- The state after the first load_or_execute of the task. -/
def c1After1 : ExecutorState :=
  match load_or_execute c1Env c1Init "t" with
  | .ok r => r.2
  | .error _ => c1Init

/-- The state after the second load_or_execute of the same task. -/
def c1After2 : ExecutorState :=
  match load_or_execute c1Env c1After1 "t" with
  | .ok r => r.2
  | .error _ => c1After1

/-! ## Order lemmas -/

theorem strCmpL_swap (a : List Char) : ∀ b, strCmpL b a = (strCmpL a b).swap := by
  induction a with
  | nil => intro b; cases b <;> rfl
  | cons x xs ih =>
    intro b
    cases b with
    | nil => rfl
    | cons y ys =>
      simp only [strCmpL]
      by_cases h1 : x.toNat < y.toNat
      · have h2 : ¬ y.toNat < x.toNat := by omega
        simp [h1, h2, Ordering.swap]
      · by_cases h2 : y.toNat < x.toNat
        · simp [h1, h2, Ordering.swap]
        · simp [h1, h2, ih ys]

theorem strCmp_swap (a b : String) : strCmp b a = (strCmp a b).swap :=
  strCmpL_swap a.data b.data

theorem pathCmp_swap (a : PathC) : ∀ b, pathCmp b a = (pathCmp a b).swap := by
  induction a with
  | nil => intro b; cases b <;> rfl
  | cons x xs ih =>
    intro b
    cases b with
    | nil => rfl
    | cons y ys =>
      simp only [pathCmp]
      rw [strCmp_swap x y]
      cases h : strCmp x y with
      | eq => simp [Ordering.swap, ih ys]
      | lt => simp [Ordering.swap]
      | gt => simp [Ordering.swap]

theorem pathLeB_total (a b : PathC) : pathLeB a b = true ∨ pathLeB b a = true := by
  unfold pathLeB
  cases h : pathCmp a b with
  | lt => left; simp [h]
  | eq => left; simp [h]
  | gt =>
    right
    have hswap : pathCmp b a = Ordering.lt := by
      rw [pathCmp_swap a b, h]; rfl
    simp [hswap]

/-! ## Sortedness lemmas -/

theorem chainB_tail (le : α → α → Bool) (x : α) (l : List α)
    (h : chainB le (x :: l) = true) : chainB le l = true := by
  cases l with
  | nil => rfl
  | cons y ys =>
    have hh := h
    simp only [chainB, Bool.and_eq_true] at hh
    exact hh.2

theorem insort_eq_of_chainB (le : α → α → Bool) :
    ∀ l, chainB le l = true → insort le l = l := by
  intro l
  induction l with
  | nil => intro _; rfl
  | cons x xs ih =>
    intro h
    have hxs := chainB_tail le x xs h
    show insertSorted le x (insort le xs) = x :: xs
    rw [ih hxs]
    cases xs with
    | nil => rfl
    | cons y ys =>
      have hxy : le x y = true := by
        have hh := h
        simp only [chainB, Bool.and_eq_true] at hh
        exact hh.1
      simp [insertSorted, hxy]

theorem chainB_insertSorted (le : α → α → Bool)
    (tot : ∀ a b, le a b = true ∨ le b a = true) (x : α) :
    ∀ l, chainB le l = true → chainB le (insertSorted le x l) = true := by
  intro l
  induction l with
  | nil => intro _; rfl
  | cons y ys ih =>
    intro h
    by_cases hxy : le x y = true
    · simp [insertSorted, hxy, chainB, h]
    · have hyx : le y x = true := (tot x y).resolve_left hxy
      simp only [insertSorted, if_neg hxy]
      cases ys with
      | nil => simp [insertSorted, chainB, hyx]
      | cons z zs =>
        have hh := h
        simp only [chainB, Bool.and_eq_true] at hh
        obtain ⟨hyz, hzz⟩ := hh
        have ih2 := ih hzz
        by_cases hxz : le x z = true
        · simp only [insertSorted, if_pos hxz] at ih2 ⊢
          simp [chainB, hyx, hxz, hzz]
        · simp only [insertSorted, if_neg hxz] at ih2 ⊢
          simp only [chainB, Bool.and_eq_true]
          exact ⟨hyz, ih2⟩

theorem chainB_insort (le : α → α → Bool)
    (tot : ∀ a b, le a b = true ∨ le b a = true) (l : List α) :
    chainB le (insort le l) = true := by
  induction l with
  | nil => rfl
  | cons x xs ih =>
    show chainB le (insertSorted le x (insort le xs)) = true
    exact chainB_insertSorted le tot x _ ih

/-! ## Blob directory lemmas -/

theorem find?_filter_append (fs : BlobFS) (n c : String) :
    List.find? (fun e => e.fst == n)
      ((fs.filter (fun e => decide (e.fst ≠ n))) ++ [(n, c)]) = some (n, c) := by
  induction fs with
  | nil => simp [List.find?]
  | cons e fs ih =>
    by_cases he : e.fst = n
    · have hd : ¬ (decide (e.fst ≠ n)) = true := by simp [he]
      rw [List.filter_cons, if_neg hd]
      exact ih
    · have hd : (decide (e.fst ≠ n)) = true := by simp [he]
      have hb : ¬ ((e.fst == n) = true) := by simp [he]
      rw [List.filter_cons, if_pos hd, List.cons_append,
        List.find?_cons_of_neg, ih]
      exact hb

theorem fsRead_fsWrite_self (fs : BlobFS) (n c : String) :
    fsRead (fsWrite fs n c) n = some c := by
  unfold fsRead fsWrite
  rw [find?_filter_append]
  rfl

/-! ## Surely-includes-none lemmas -/

theorem clausesSurely_of (clauses : List ClauseM)
    (H : ∀ c ∈ clauses, ∀ sub, ClauseM.filesToMatch c = some sub →
      surely_includes_none sub = true) :
    clausesSurelyIncludeNone clauses = true := by
  induction clauses with
  | nil => rfl
  | cons c rest ih =>
    cases c with
    | mk ftm mts dirs =>
      cases ftm with
      | none =>
        show clausesSurelyIncludeNone rest = true
        exact ih (fun c hc sub hsub => H c (List.mem_cons_of_mem _ hc) sub hsub)
      | some sub =>
        have hsub : surely_includes_none sub = true :=
          H _ (List.mem_cons_self _ _) sub rfl
        show (surely_includes_none sub && clausesSurelyIncludeNone rest) = true
        rw [hsub, Bool.true_and]
        exact ih (fun c hc sub hsub => H c (List.mem_cons_of_mem _ hc) sub hsub)

theorem specIncludesNothing_surely {cfg : ConfigM}
    (h : SpecIncludesNothing cfg) : surely_includes_none cfg = true := by
  induction h with
  | intro hF hG hc ih =>
    subst hF
    subst hG
    simp only [surely_includes_none, List.isEmpty_nil, Bool.true_and]
    exact clausesSurely_of _ ih

/-! ## Claim theorems -/

/-- Claim C1.  The claim states that a first cache-missing load_or_execute
records a pointer under the fingerprint in inputs_to_outputs so that a
second call with the same canonical inputs returns the cached Task Outputs
without invoking the runner again.  Evaluating the embedded executor on a
fresh cache shows the contrary: after the first call the runner double ran
once but the pointer directory and the blob directory are still empty, the
pointer lookup at the fingerprint still fails, and the second call invokes
the runner again. -/
theorem c1_load_or_execute_never_records_pointer :
    c1After1.runnerRuns = 1
  ∧ c1After1.outputsPointers = []
  ∧ c1After1.blobs = []
  ∧ read_blob_pointer c1Env.deserIdentity c1After1.outputsPointers
      (c1Env.digest (c1Env.serTaskInputs "t")) = none
  ∧ c1After2.runnerRuns = 2 :=
  ⟨rfl, rfl, rfl, rfl, rfl⟩

/-- Claim C2.  The claim states that put_task stores the serialized
outputs manifest as the pointer-target blob and that get_outputs then
returns it.  Evaluating the embedded put_task shows that the pointer
target is the identity of a second copy of the serialized inputs manifest,
that the blob stored there holds the serialized inputs and not the
serialized outputs, and that get_outputs consequently fails with an error
instead of returning the outputs value. -/
theorem c2_put_task_stores_inputs_blob_as_outputs :
    fsRead c2State.outputsPointers (c2Digest (c2SerInputs "in"))
      = some (c2Digest (c2SerInputs "in"))
  ∧ fsRead c2State.blobs (c2Digest (c2SerInputs "in")) = some (c2SerInputs "in")
  ∧ c2SerInputs "in" ≠ c2SerOutputs "out"
  ∧ get_outputs Option.some c2DeserTaskOutput c2State
      (c2Digest (c2SerInputs "in")) = .error () := by
  refine ⟨rfl, rfl, by decide, rfl⟩

/-- Claim C3.  On the S1 filesystem and inputs configuration, input
discovery produces exactly the sorted manifest of the claim, and the
result is a fixed point: one further pass over the two
inter-file-reference clauses adds no file. -/
theorem c3_s1_input_discovery_fixed_point :
    inputs_manifest_try_from 10 s1fs s1cfg = .ok s1Expected
  ∧ runClausesAux 10 s1fs s1cfg s1cfg.clauses s1Expected = .ok s1Expected := by
  refine ⟨by decide, by decide⟩

/-- Claim C4.  The claim states that an input path matched by an exclude
regex is skipped entirely as a transform seed, with exclusion decided on
the input path.  The projection implemented by the TryFrom conversion
behaves that way, but get_matching_output_files, the projection on the
execution path, checks exclusion on the transformed path after each stage:
on the S2-style input the excluded input path still produces an output. -/
theorem c4_output_exclusion_checked_after_transform :
    c4Exclude "a/b/o.stu" = true
  ∧ get_matching_output_files c4Inputs c4Cfg = ["out/a/b/o.out.stu"]
  ∧ outputs_manifest_try_from c4Inputs c4Cfg = [] := by
  refine ⟨by decide, by decide, by decide⟩

/-- Claim C5, counterexample.  The strict loader accepts a sorted manifest
whose path sequence is duplicated, so loading does not require
duplicate-freedom as the claim states. -/
theorem c5_duplicate_paths_accepted :
    (fim_try_from c5Dup).isSome = true
  ∧ ¬ (c5Dup.identities.map Prod.fst).Nodup := by
  refine ⟨by decide, by decide⟩

/-- Claim C5, amended.  Loading a File-Identities Manifest from a strict
manifest succeeds exactly when its path sequence is sorted, in the
non-strict sense that admits duplicated paths; unsorted input is
rejected. -/
theorem c5_fim_sorted_iff {Id : Type} (t : FileIdentitiesManifestT Id) :
    (fim_try_from t).isSome = true ↔
      chainB pathLeB (t.identities.map Prod.fst) = true := by
  constructor
  · intro hsome
    by_cases h : (t.identities.map Prod.fst)
        = insort pathLeB (t.identities.map Prod.fst)
    · rw [h]
      exact chainB_insort pathLeB pathLeB_total _
    · exfalso
      simp only [fim_try_from] at hsome
      rw [if_neg h] at hsome
      simp at hsome
  · intro hch
    have h := insort_eq_of_chainB pathLeB _ hch
    simp only [fim_try_from]
    rw [if_pos h.symm]
    rfl

/-- Claim C6.  Loading an inputs configuration that surely includes
nothing, in the structural sense of the claim, fails with an error for
every filesystem state and every fuel. -/
theorem c6_surely_includes_none_rejected (fuel : Nat) (fs : FSM)
    (cfg : ConfigM) (h : SpecIncludesNothing cfg) :
    inputs_manifest_try_from fuel fs cfg = .err := by
  unfold inputs_manifest_try_from
  rw [if_pos (specIncludesNothing_surely h)]

/-- Witness for claim C6 at the empty configuration and empty
filesystem. -/
theorem c6_surely_includes_none_rejected_witness :
    SpecIncludesNothing (ConfigM.mk [] [] [] [] [])
    ∧ inputs_manifest_try_from 3 ⟨[]⟩ (ConfigM.mk [] [] [] [] []) = .err := by
  have hs : SpecIncludesNothing (ConfigM.mk [] [] [] [] []) :=
    SpecIncludesNothing.intro rfl rfl
      (fun c hc sub hsub => absurd hc (List.not_mem_nil c))
  exact ⟨hs, c6_surely_includes_none_rejected 3 ⟨[]⟩ _ hs⟩

/-- Claim C7.  For any hash-set enumeration order: an unsorted manifest is
rejected and a duplicated manifest or configuration is rejected, as the
claim states; but the claim also states that a duplicate-free
configuration always loads sorted by key, and the embedded loader shows
this is enumeration dependent: under the reversed enumeration the same
duplicate-free configuration is rejected, while under the identity
enumeration it loads sorted. -/
theorem c7_environment_variables_loaders
    (enumOrder : List EnvPair → List EnvPair)
    (hperm : ∀ l, List.Perm (enumOrder l) l) :
    try_from_manifest enumOrder c7Unsorted = none
  ∧ try_from_manifest enumOrder c7DupManifest = none
  ∧ try_from_config enumOrder c7DupConfig = none
  ∧ try_from_config revOrder c7NoDup = none
  ∧ try_from_config idOrder c7NoDup = some c7NoDupSorted := by
  refine ⟨rfl, ?_, ?_, by decide, by decide⟩
  · have hlen : (enumOrder (dedupKeepFirst (insort keyLe c7DupManifest))).length
        = (dedupKeepFirst (insort keyLe c7DupManifest)).length :=
      (hperm _).length_eq
    have hne : insort keyLe c7DupManifest
        ≠ enumOrder (dedupKeepFirst (insort keyLe c7DupManifest)) := by
      intro he
      have h2 := congrArg List.length he
      rw [hlen] at h2
      exact absurd h2 (by decide)
    simp only [try_from_manifest]
    rw [if_pos (by decide), if_neg hne]
  · have hlen : (enumOrder (dedupKeepFirst (insort keyLe c7DupConfig))).length
        = (dedupKeepFirst (insort keyLe c7DupConfig)).length :=
      (hperm _).length_eq
    have hne : insort keyLe c7DupConfig
        ≠ enumOrder (dedupKeepFirst (insort keyLe c7DupConfig)) := by
      intro he
      have h2 := congrArg List.length he
      rw [hlen] at h2
      exact absurd h2 (by decide)
    simp only [try_from_config]
    rw [if_neg hne]

/-- Witness for claim C7 with the reversed enumeration, a permutation. -/
theorem c7_environment_variables_loaders_witness :
    try_from_manifest revOrder c7Unsorted = none
  ∧ try_from_manifest revOrder c7DupManifest = none
  ∧ try_from_config revOrder c7DupConfig = none
  ∧ try_from_config revOrder c7NoDup = none
  ∧ try_from_config idOrder c7NoDup = some c7NoDupSorted :=
  c7_environment_variables_loaders revOrder (fun l => List.reverse_perm l)

/-- Claim C8.  For every digest, serializer, prior directory state, value
and random suffix: the small write stores the serialized bytes under their
digest as file name, and the large write stages through the temporary
name, succeeds, and leaves the serialized bytes stored under their digest
as file name; in both cases the resulting blob file name equals the digest
of the bytes stored in it. -/
theorem c8_blob_filename_is_digest {α : Type} (digest : String → String)
    (ser : α → String) (fs : BlobFS) (data : α) (rnd : Nat) :
    (fsRead (write_small_blob digest ser fs data).2
        (write_small_blob digest ser fs data).1 = some (ser data)
     ∧ (write_small_blob digest ser fs data).1 = digest (ser data))
  ∧ ∃ fs2 : BlobFS,
      write_large_blob digest ser fs data rnd = some (digest (ser data), fs2)
      ∧ fsRead fs2 (digest (ser data)) = some (ser data) := by
  constructor
  · exact ⟨fsRead_fsWrite_self fs (digest (ser data)) (ser data), rfl⟩
  · have h1 : fsRead (fsWrite fs ("temporary_blob_" ++ toString rnd) (ser data))
        ("temporary_blob_" ++ toString rnd) = some (ser data) :=
      fsRead_fsWrite_self _ _ _
    refine ⟨fsMove (fsWrite fs ("temporary_blob_" ++ toString rnd) (ser data))
        ("temporary_blob_" ++ toString rnd) (digest (ser data)), ?_, ?_⟩
    · simp only [write_large_blob]
      rw [h1]
    · simp only [fsMove]
      rw [h1]
      exact fsRead_fsWrite_self _ _ _

/-- Claim C9.  Writing a blob pointer with source identity s and
destination identity d by the raw, small or large pointer write and then
reading the pointer at the resulting source identity yields exactly d,
given that the identity codec round trips. -/
theorem c9_blob_pointer_roundtrip {α : Type} (digest serId : String → String)
    (deserId : String → Option String) (ser : α → String) (fs : BlobFS)
    (srcData : α) (s d : String)
    (roundtrip : ∀ i, deserId (serId i) = some i) :
    read_blob_pointer deserId (write_raw_blob_pointer serId fs s d) s = some d
  ∧ read_blob_pointer deserId
      (write_small_blob_pointer digest serId ser fs srcData d).2
      (write_small_blob_pointer digest serId ser fs srcData d).1 = some d
  ∧ read_blob_pointer deserId
      (write_large_blob_pointer digest serId ser fs srcData d).2
      (write_large_blob_pointer digest serId ser fs srcData d).1 = some d := by
  refine ⟨?_, ?_, ?_⟩ <;>
  · simp only [read_blob_pointer, write_raw_blob_pointer,
      write_small_blob_pointer, write_large_blob_pointer]
    rw [fsRead_fsWrite_self]
    exact roundtrip d

/-- Witness for claim C9 with the identity codec. -/
theorem c9_blob_pointer_roundtrip_witness :
    read_blob_pointer Option.some
        (write_raw_blob_pointer (fun i => i) [] "s" "d") "s" = some "d"
  ∧ read_blob_pointer Option.some
      (write_small_blob_pointer (fun i => i) (fun i => i)
        (fun i : String => i) [] "x" "d").2
      (write_small_blob_pointer (fun i => i) (fun i => i)
        (fun i : String => i) [] "x" "d").1 = some "d"
  ∧ read_blob_pointer Option.some
      (write_large_blob_pointer (fun i => i) (fun i => i)
        (fun i : String => i) [] "x" "d").2
      (write_large_blob_pointer (fun i => i) (fun i => i)
        (fun i : String => i) [] "x" "d").1 = some "d" :=
  c9_blob_pointer_roundtrip (fun i => i) (fun i => i) Option.some
    (fun i : String => i) [] "x" "s" "d" (fun i => rfl)

/-- Claim C10.  Listing put returns true exactly when the identity was
absent and afterwards the identity is a member; a second put returns false
and leaves the listing unchanged; remove returns true exactly when the
identity was present; and membership after put is membership before or
equality with the inserted identity. -/
theorem c10_listing_put_remove {α : Type} [DecidableEq α] (l : ListingM α)
    (x y : α) :
    ((l.put x).1 = true ↔ x ∉ l.entries)
  ∧ x ∈ (l.put x).2.entries
  ∧ ((l.put x).2.put x).1 = false
  ∧ ((l.put x).2.put x).2 = (l.put x).2
  ∧ ((l.remove x).1 = true ↔ x ∈ l.entries)
  ∧ (y ∈ (l.put x).2.entries ↔ y ∈ l.entries ∨ y = x) := by
  by_cases hx : x ∈ l.entries
  · refine ⟨?_, ?_, ?_, ?_, ?_, ?_⟩
    · simp [ListingM.put, hx]
    · simp [ListingM.put, hx]
    · simp [ListingM.put, hx]
    · simp [ListingM.put, hx]
    · simp [ListingM.remove, hx]
    · simp only [ListingM.put, if_pos hx]
      constructor
      · intro h
        exact Or.inl h
      · intro h
        cases h with
        | inl h => exact h
        | inr h => rw [h]; exact hx
  · refine ⟨?_, ?_, ?_, ?_, ?_, ?_⟩
    · simp [ListingM.put, hx]
    · simp [ListingM.put, hx]
    · have hmem : x ∈ l.entries ++ [x] := by simp
      simp [ListingM.put, hx, hmem]
    · have hmem : x ∈ l.entries ++ [x] := by simp
      simp [ListingM.put, hx, hmem]
    · simp [ListingM.remove, hx]
    · simp [ListingM.put, hx, List.mem_append]

end ArtifactExecutor
